import Mathlib

/-!
Shallow embedding of the forecast core of the
P-246-Group-6-Stock-Price-Forecasting repository
(source: src/.ipynb_checkpoints/untitled-checkpoint.py).

Modelling conventions:
* prices are rationals (`ℚ`); Python float arithmetic on the quantities the
  claims speak about is exact rational arithmetic in every statement proved;
* timestamps are integer day numbers (`ℤ`), with the convention that day
  `d` is a weekday (Mon..Fri) iff `d % 7 < 5` (day 0 is a Monday);
  `relativedelta(days = n)` is day-number subtraction and
  `relativedelta(years = 2)` is modelled as 730 days (the exact calendar
  length of the lookback is irrelevant to every claim treated here);
* a pandas `Series` of prices is a `List (ℤ × ℚ)` of (timestamp, price)
  pairs in index order; `NaN` entries are `Option.none`;
* a raised Python exception is `Except.error` carrying the exception name.
-/

/-- Equality of modelled Python outcomes (results or raised exceptions) is
decidable, so concrete runs can be settled by `decide`. -/
instance exceptDecEq {ε α : Type} [DecidableEq ε] [DecidableEq α] :
    DecidableEq (Except ε α) := fun a b =>
  match a, b with
  | .ok x, .ok y =>
      if h : x = y then isTrue (by rw [h])
      else isFalse (by intro hc; cases hc; exact h rfl)
  | .error x, .error y =>
      if h : x = y then isTrue (by rw [h])
      else isFalse (by intro hc; cases hc; exact h rfl)
  | .ok _, .error _ => isFalse (by intro hc; cases hc)
  | .error _, .ok _ => isFalse (by intro hc; cases hc)

/-- Embedding of `calculate_directional_accuracy`'s loop-body test for index
`i` (`i = 1 .. len-1` in the source): `actual_direction = actual[i] - actual[i-1]`,
`predicted_direction = predicted[i] - actual[i-1]`, counted as correct when both
are `>= 0` or both are `< 0`. Here `prevA = actual[i-1]`, `a = actual[i]`,
`p = predicted[i]`. -/
def dirOk (prevA a p : ℚ) : Bool :=
  (decide (0 ≤ a - prevA) && decide (0 ≤ p - prevA)) ||
    (decide (a - prevA < 0) && decide (p - prevA < 0))

/-- `correct_predictions` accumulated by the `for i in range(1, len(actual))`
loop of `calculate_directional_accuracy`, reindexed by `j = i - 1`. -/
def countCorrect (actual predicted : List ℚ) : ℕ :=
  ((List.range (actual.length - 1)).filter
    (fun j => dirOk (actual.getD j 0) (actual.getD (j+1) 0) (predicted.getD (j+1) 0))).length

/-- Embedding of `calculate_directional_accuracy`:
raises `ValueError` on a length mismatch; otherwise computes
`total_predictions = len(actual) - 1` (Python int, hence `ℤ`),
counts correct directions, and returns `correct / total`.
When `total = 0` (a one-element input) Python raises `ZeroDivisionError`;
when `len(actual) = 0`, `total = -1` and Python returns `0/(-1) = -0.0`,
i.e. the value `0`. -/
def calculate_directional_accuracy (actual predicted : List ℚ) : Except String ℚ :=
  if actual.length ≠ predicted.length then
    .error "ValueError: Lengths of actual_prices and predicted_prices must be the same."
  else
    let total : ℤ := (actual.length : ℤ) - 1
    if total = 0 then .error "ZeroDivisionError: division by zero"
    else .ok ((countCorrect actual predicted : ℚ) / (total : ℚ))

/-- All steps direction-matching: `dirOk` holds at every compared index. -/
def allMatchDir (actual predicted : List ℚ) : Bool :=
  (List.range (actual.length - 1)).all
    (fun j => dirOk (actual.getD j 0) (actual.getD (j+1) 0) (predicted.getD (j+1) 0))

/-- All steps direction-inverted: `dirOk` fails at every compared index. -/
def allInvertDir (actual predicted : List ℚ) : Bool :=
  (List.range (actual.length - 1)).all
    (fun j => !(dirOk (actual.getD j 0) (actual.getD (j+1) 0) (predicted.getD (j+1) 0)))

lemma countCorrect_le (actual predicted : List ℚ) :
    countCorrect actual predicted ≤ actual.length - 1 := by
  have h := List.length_filter_le
    (fun j => dirOk (actual.getD j 0) (actual.getD (j+1) 0) (predicted.getD (j+1) 0))
    (List.range (actual.length - 1))
  simpa [countCorrect] using h

lemma countCorrect_of_allMatch (actual predicted : List ℚ)
    (h : allMatchDir actual predicted = true) :
    countCorrect actual predicted = actual.length - 1 := by
  unfold countCorrect
  rw [List.filter_eq_self.mpr]
  · exact List.length_range _
  · intro j hj
    have := (List.all_eq_true.mp h) j hj
    simpa using this

lemma countCorrect_of_allInvert (actual predicted : List ℚ)
    (h : allInvertDir actual predicted = true) :
    countCorrect actual predicted = 0 := by
  unfold countCorrect
  rw [List.filter_eq_nil_iff.mpr]
  · rfl
  · intro j hj
    have := (List.all_eq_true.mp h) j hj
    simpa using this

/-- **C6.** For every pair of equal-length actual/predicted sequences of
length at least 2, `calculate_directional_accuracy` returns
`countCorrect / (len - 1)`, a value in `[0,1]`; a perfectly sign-matching
predicted sequence yields `1` and a perfectly sign-inverted one yields `0`
(zero differences counted in the non-negative bucket, as in the source). -/
theorem directional_accuracy_props (actual predicted : List ℚ)
    (hlen : actual.length = predicted.length) (h2 : 2 ≤ actual.length) :
    calculate_directional_accuracy actual predicted =
      .ok ((countCorrect actual predicted : ℚ) / ((actual.length : ℚ) - 1))
    ∧ 0 ≤ (countCorrect actual predicted : ℚ) / ((actual.length : ℚ) - 1)
    ∧ (countCorrect actual predicted : ℚ) / ((actual.length : ℚ) - 1) ≤ 1
    ∧ (allMatchDir actual predicted = true →
        calculate_directional_accuracy actual predicted = .ok 1)
    ∧ (allInvertDir actual predicted = true →
        calculate_directional_accuracy actual predicted = .ok 0) := by
  have htotal : ((actual.length : ℤ) - 1) ≠ 0 := by omega
  have hpos : (0 : ℚ) < (actual.length : ℚ) - 1 := by
    have : (2 : ℚ) ≤ (actual.length : ℚ) := by exact_mod_cast h2
    linarith
  have hrun : calculate_directional_accuracy actual predicted =
      .ok ((countCorrect actual predicted : ℚ) / ((actual.length : ℚ) - 1)) := by
    unfold calculate_directional_accuracy
    rw [if_neg (by simp [hlen]), if_neg htotal]
    norm_num
  have hle : (countCorrect actual predicted : ℚ) ≤ (actual.length : ℚ) - 1 := by
    have h1 := countCorrect_le actual predicted
    have : ((countCorrect actual predicted : ℚ)) ≤ ((actual.length - 1 : ℕ) : ℚ) := by
      exact_mod_cast h1
    have hc : ((actual.length - 1 : ℕ) : ℚ) = (actual.length : ℚ) - 1 := by
      have : 1 ≤ actual.length := by omega
      push_cast [Nat.cast_sub this]
      ring
    rwa [hc] at this
  refine ⟨hrun, ?_, ?_, ?_, ?_⟩
  · positivity
  · rw [div_le_one hpos]; exact hle
  · intro hm
    rw [hrun, countCorrect_of_allMatch actual predicted hm]
    have hc : ((actual.length - 1 : ℕ) : ℚ) = (actual.length : ℚ) - 1 := by
      have : 1 ≤ actual.length := by omega
      push_cast [Nat.cast_sub this]
      ring
    rw [hc, div_self (by linarith)]
  · intro hm
    rw [hrun, countCorrect_of_allInvert actual predicted hm]
    norm_num

/-- Witness for `directional_accuracy_props` at a concrete input. -/
theorem directional_accuracy_props_witness :
    ([(1:ℚ), 2, 3].length = [(0:ℚ), 0, 0].length ∧ 2 ≤ [(1:ℚ), 2, 3].length)
    ∧ calculate_directional_accuracy [(1:ℚ), 2, 3] [(0:ℚ), 0, 0] =
        .ok ((countCorrect [(1:ℚ), 2, 3] [(0:ℚ), 0, 0] : ℚ) / (([(1:ℚ), 2, 3].length : ℚ) - 1)) :=
  ⟨⟨by decide, by decide⟩,
    (directional_accuracy_props [(1:ℚ), 2, 3] [(0:ℚ), 0, 0] (by decide) (by decide)).1⟩

/-- **C7 counterexample.** On equal-length inputs of length 1 the function
raises `ZeroDivisionError` (an unnamed arithmetic error), and on length-0
inputs it returns the value `0/(-1) = -0.0`; it never raises a
`DegenerateInputError` (no such error exists in the code). -/
theorem directional_accuracy_short_counterexample :
    calculate_directional_accuracy [(1:ℚ)] [(1:ℚ)] =
      .error "ZeroDivisionError: division by zero"
    ∧ calculate_directional_accuracy ([] : List ℚ) ([] : List ℚ) = .ok 0 := by
  constructor
  · rfl
  · norm_num [calculate_directional_accuracy, countCorrect]

/-- **C7 (amended).** For equal-length inputs: length 1 raises
`ZeroDivisionError` (an unnamed arithmetic error); length 0 returns the
value `0` (Python `-0.0`); no `DegenerateInputError` is raised. -/
theorem directional_accuracy_short (actual predicted : List ℚ)
    (hlen : actual.length = predicted.length) :
    (actual.length = 1 →
      calculate_directional_accuracy actual predicted =
        .error "ZeroDivisionError: division by zero")
    ∧ (actual.length = 0 →
      calculate_directional_accuracy actual predicted = .ok 0) := by
  constructor
  · intro h1
    unfold calculate_directional_accuracy
    rw [if_neg (by simp [hlen])]
    simp [h1]
  · intro h0
    unfold calculate_directional_accuracy
    rw [if_neg (by simp [hlen])]
    have : ((actual.length : ℤ) - 1) = -1 := by omega
    rw [this]
    have hc : countCorrect actual predicted = 0 := by
      simp [countCorrect, h0]
    simp [hc]

/-- Witness for `directional_accuracy_short` at a concrete input. -/
theorem directional_accuracy_short_witness :
    ([(5:ℚ)].length = [(7:ℚ)].length)
    ∧ ([(5:ℚ)].length = 1 →
        calculate_directional_accuracy [(5:ℚ)] [(7:ℚ)] =
          .error "ZeroDivisionError: division by zero") :=
  ⟨by decide, (directional_accuracy_short [(5:ℚ)] [(7:ℚ)] (by decide)).1⟩

/-- `last_day = hist.index[-1]` from `get_forecast` (`0` stands for the
`IndexError` case of an empty frame, which `get_forecast_core` rules out
before this value is used). -/
def lastDayD (hist : List (ℤ × ℚ)) : ℤ :=
  match hist.getLast? with
  | some p => p.1
  | none => 0

/-- `first_day = last_day - relativedelta(years = 2)`, modelled as 730 days. -/
def firstDayOf (hist : List (ℤ × ℚ)) : ℤ := lastDayD hist - 730

/-- `last_train_day = last_day - relativedelta(days = validation_days)`. -/
def lastTrainDayOf (hist : List (ℤ × ℚ)) (validation_days : ℕ) : ℤ :=
  lastDayD hist - validation_days

/-- `y_train = hist.loc[first_day:last_train_day, 'Close']`: a pandas label
slice keeps every row whose timestamp lies in the closed interval. -/
def y_train_of (hist : List (ℤ × ℚ)) (validation_days : ℕ) : List (ℤ × ℚ) :=
  hist.filter (fun p =>
    decide (firstDayOf hist ≤ p.1) && decide (p.1 ≤ lastTrainDayOf hist validation_days))

/-- `y_test = hist.loc[last_train_day:, 'Close']`: keeps every row whose
timestamp is `≥ last_train_day` (the left endpoint is included). -/
def y_test_of (hist : List (ℤ × ℚ)) (validation_days : ℕ) : List (ℤ × ℚ) :=
  hist.filter (fun p => decide (lastTrainDayOf hist validation_days ≤ p.1))

/-- `all_days = hist.loc[first_day:, 'Close']`. -/
def all_days_of (hist : List (ℤ × ℚ)) : List (ℤ × ℚ) :=
  hist.filter (fun p => decide (firstDayOf hist ≤ p.1))

/-- Restriction of a series to a closed timestamp interval `[a, b]`
(the spec's notation for windowing restrictions). -/
def specRestrict (s : List (ℤ × ℚ)) (a b : ℤ) : List (ℤ × ℚ) :=
  s.filter (fun p => decide (a ≤ p.1) && decide (p.1 ≤ b))

/-- Restriction of a series to a half-open timestamp interval `(a, b]`:
this follows the spec's words for `validationSeries`
("fullSeries restricted to (lastTrainDay, lastDay]") and is compared
against the source's `y_test_of`. -/
def specRestrictOpen (s : List (ℤ × ℚ)) (a b : ℤ) : List (ℤ × ℚ) :=
  s.filter (fun p => decide (a < p.1) && decide (p.1 ≤ b))

/-- Every timestamp of the series is at most the last one (holds for any
index in increasing order; stated as an executable check). -/
def keysLeLast (hist : List (ℤ × ℚ)) : Bool :=
  hist.all (fun p => decide (p.1 ≤ lastDayD hist))

/-- The train and validation windows overlap only at `last_train_day`. -/
def overlapOnlyAtCut (hist : List (ℤ × ℚ)) (validation_days : ℕ) : Bool :=
  ((y_train_of hist validation_days).inter (y_test_of hist validation_days)).all
    (fun p => decide (p.1 = lastTrainDayOf hist validation_days))

/-- The two windows jointly cover the lookback-restricted history. -/
def windowsCover (hist : List (ℤ × ℚ)) (validation_days : ℕ) : Bool :=
  (all_days_of hist).all (fun p =>
    decide (p ∈ y_train_of hist validation_days) ||
      decide (p ∈ y_test_of hist validation_days))

/-- An eleven-trading-day series (days 0..10, constant price 1) used as the
concrete input of several counterexamples and witnesses. -/
def sampleSeries11 : List (ℤ × ℚ) :=
  [(0, 1), (1, 1), (2, 1), (3, 1), (4, 1), (5, 1), (6, 1), (7, 1), (8, 1), (9, 1), (10, 1)]

/-- **C1 counterexample.** On the 11-day series with `validationDays = 5`,
`lastTrainDay = 5` belongs to both the train slice and the validation slice
(pandas label slices are inclusive at both ends), and the validation slice
differs from the spec's half-open restriction `(lastTrainDay, lastDay]`:
the windows are not disjoint. -/
theorem windowing_overlap_counterexample :
    ((5 : ℤ), (1 : ℚ)) ∈ y_train_of sampleSeries11 5
    ∧ ((5 : ℤ), (1 : ℚ)) ∈ y_test_of sampleSeries11 5
    ∧ y_test_of sampleSeries11 5 ≠
        specRestrictOpen sampleSeries11 (lastTrainDayOf sampleSeries11 5) (lastDayD sampleSeries11) := by
  refine ⟨by decide, by decide, by decide⟩

/-- **C1 (amended).** The train window is the restriction to
`[firstDay, lastTrainDay]` and the validation window is the restriction to
`[lastTrainDay, lastDay]` — both endpoints included — so the two windows
jointly cover the lookback-restricted history and overlap in at most the
single timestamp `lastTrainDay`. -/
theorem windowing_partition (hist : List (ℤ × ℚ)) (validation_days : ℕ)
    (h : keysLeLast hist = true) :
    y_train_of hist validation_days =
      specRestrict hist (firstDayOf hist) (lastTrainDayOf hist validation_days)
    ∧ y_test_of hist validation_days =
      specRestrict hist (lastTrainDayOf hist validation_days) (lastDayD hist)
    ∧ overlapOnlyAtCut hist validation_days = true
    ∧ windowsCover hist validation_days = true := by
  have hb : ∀ p ∈ hist, p.1 ≤ lastDayD hist := by
    intro p hp
    have := (List.all_eq_true.mp h) p hp
    simpa using this
  refine ⟨rfl, ?_, ?_, ?_⟩
  · unfold y_test_of specRestrict
    apply List.filter_congr
    intro p hp
    have := hb p hp
    simp [this]
  · rw [overlapOnlyAtCut, List.all_eq_true]
    intro p hp
    have hmem := List.mem_inter_iff.mp hp
    have h1 := List.of_mem_filter hmem.1
    have h2 := List.of_mem_filter hmem.2
    simp only [Bool.and_eq_true, decide_eq_true_eq] at h1 h2
    simp only [decide_eq_true_eq]
    omega
  · rw [windowsCover, List.all_eq_true]
    intro p hp
    have hmemHist := List.mem_of_mem_filter hp
    have hfirst := List.of_mem_filter hp
    simp only [decide_eq_true_eq] at hfirst
    rcases le_total p.1 (lastTrainDayOf hist validation_days) with hle | hge
    · have : p ∈ y_train_of hist validation_days :=
        List.mem_filter.mpr ⟨hmemHist, by simp [hfirst, hle]⟩
      simp [this]
    · have : p ∈ y_test_of hist validation_days :=
        List.mem_filter.mpr ⟨hmemHist, by simp [hge]⟩
      simp [this]

/-- Witness for `windowing_partition` at the concrete 11-day series. -/
theorem windowing_partition_witness :
    keysLeLast sampleSeries11 = true
    ∧ (y_train_of sampleSeries11 5 =
        specRestrict sampleSeries11 (firstDayOf sampleSeries11) (lastTrainDayOf sampleSeries11 5)
      ∧ y_test_of sampleSeries11 5 =
        specRestrict sampleSeries11 (lastTrainDayOf sampleSeries11 5) (lastDayD sampleSeries11)
      ∧ overlapOnlyAtCut sampleSeries11 5 = true
      ∧ windowsCover sampleSeries11 5 = true) :=
  ⟨by decide, windowing_partition sampleSeries11 5 (by decide)⟩

/-- `freq="B"` membership: day `d` is a business day iff it is not a
weekend day; with the convention day 0 = Monday, `d % 7 < 5`. -/
def isBusinessDay (d : ℤ) : Bool := decide (d % 7 < 5)

/-- `forecast_days = pd.date_range(start = last_day + relativedelta(days=1),
end = last_day + relativedelta(days=days_to_forecast), freq="B").tolist()`:
the business days in the calendar interval
`[last_day + 1, last_day + days_to_forecast]`, in order. -/
def forecastTimestamps (last_day : ℤ) (days_to_forecast : ℕ) : List ℤ :=
  ((List.range days_to_forecast).map (fun i : ℕ => last_day + 1 + (i : ℤ))).filter isBusinessDay

/-- Every produced timestamp is a weekday strictly after the last day. -/
def ftsAllBusinessAfter (last_day : ℤ) (days_to_forecast : ℕ) : Bool :=
  (forecastTimestamps last_day days_to_forecast).all
    (fun d => isBusinessDay d && decide (last_day < d))

/-- **C2 counterexample.** With the last historical day a Friday (day 4 in
the modelling convention) and the default `days_to_forecast = 30`, the
forecast timestamp list has 20 entries, not 30: the `date_range` end bound
is `last_day + 30` *calendar* days, and the ten weekend days inside the
interval are dropped without extending it. -/
theorem forecast_range_counterexample :
    (forecastTimestamps 4 30).length = 20 ∧ (forecastTimestamps 4 30).length ≠ 30 := by
  refine ⟨by decide, by decide⟩

/-- **C2 (amended).** The forecast timestamp list consists of weekday-only
timestamps, each strictly after the last historical day, in strictly
increasing order with no duplicates; its length is the number of weekdays
in the calendar interval `(lastDay, lastDay + forecastDays]`, which is at
most `forecastDays` but in general smaller (20 for `forecastDays = 30`
starting after a Friday), not exactly `forecastDays`. -/
theorem forecast_range_props (last_day : ℤ) (days_to_forecast : ℕ) :
    ftsAllBusinessAfter last_day days_to_forecast = true
    ∧ List.Pairwise (· < ·) (forecastTimestamps last_day days_to_forecast)
    ∧ (forecastTimestamps last_day days_to_forecast).Nodup
    ∧ (forecastTimestamps last_day days_to_forecast).length ≤ days_to_forecast := by
  have hmapped : List.Pairwise (· < ·)
      ((List.range days_to_forecast).map (fun i : ℕ => last_day + 1 + (i : ℤ))) := by
    apply List.Pairwise.map
    · intro a b hab
      show last_day + 1 + (a : ℤ) < last_day + 1 + (b : ℤ)
      have hc : (a : ℤ) < (b : ℤ) := by exact_mod_cast hab
      omega
    · exact List.pairwise_lt_range _
  have hpair : List.Pairwise (· < ·) (forecastTimestamps last_day days_to_forecast) :=
    List.Pairwise.sublist (List.filter_sublist _) hmapped
  refine ⟨?_, hpair, ?_, ?_⟩
  · rw [ftsAllBusinessAfter, List.all_eq_true]
    intro d hd
    have hbus := List.of_mem_filter hd
    have hmem := List.mem_of_mem_filter hd
    obtain ⟨i, _, hi⟩ := List.mem_map.mp hmem
    have hd2 : last_day + 1 + (i : ℤ) = d := hi
    have hnn : (0 : ℤ) ≤ (i : ℤ) := Int.natCast_nonneg i
    have hlt : last_day < d := by omega
    simp [hbus, hlt]
  · exact hpair.imp (fun hab => ne_of_lt hab)
  · calc (forecastTimestamps last_day days_to_forecast).length
        ≤ ((List.range days_to_forecast).map (fun i : ℕ => last_day + 1 + (i : ℤ))).length :=
          List.length_filter_le _ _
      _ = days_to_forecast := by rw [List.length_map, List.length_range]

/-- Pandas addition of two aligned values: `NaN` propagates, and a value
missing on either side yields `NaN`. -/
def addOpt (a b : Option ℚ) : Option ℚ :=
  match a, b with
  | some x, some y => some (x + y)
  | _, _ => none

/-- Pandas `Series + Series`: aligns the two indexes (union of the sorted
key lists); a key present on both sides gets the sum of the two values,
a key present on one side only gets `NaN`. -/
def sAdd : List (ℤ × Option ℚ) → List (ℤ × Option ℚ) → List (ℤ × Option ℚ)
  | [], s => s.map (fun p => (p.1, (none : Option ℚ)))
  | s, [] => s.map (fun p => (p.1, (none : Option ℚ)))
  | (k1, v1) :: t1, (k2, v2) :: t2 =>
    if k1 = k2 then (k1, addOpt v1 v2) :: sAdd t1 t2
    else if k1 < k2 then (k1, none) :: sAdd t1 ((k2, v2) :: t2)
    else (k2, none) :: sAdd ((k1, v1) :: t1) t2
termination_by a b => a.length + b.length
decreasing_by all_goals simp_arith

/-- A float-valued pandas series, viewed with every entry present. -/
def liftS (s : List (ℤ × ℚ)) : List (ℤ × Option ℚ) :=
  s.map (fun p => (p.1, some p.2))

/-- `(fc_arima['fc'] + fc_lstm['fc'] + fc_mcmc['fc'])/3` from the final
trace of `get_forecast`: the index-aligned sum of the three forecast
columns, divided by 3. -/
def ensembleForecast (fc_arima fc_lstm fc_mcmc : List (ℤ × ℚ)) : List (ℤ × Option ℚ) :=
  (sAdd (sAdd (liftS fc_arima) (liftS fc_lstm)) (liftS fc_mcmc)).map
    (fun p => (p.1, p.2.map (fun x => x / 3)))

/-- The spec's per-timestamp arithmetic mean of three equal-length price
columns ("for each forecastTimestamp, the arithmetic mean of the three
adapters' predicted price at that timestamp"). -/
def mean3 : List ℚ → List ℚ → List ℚ → List ℚ
  | a :: ta, b :: tb, c :: tc => (a + b + c) / 3 :: mean3 ta tb tc
  | _, _, _ => []

lemma ensemble_cons (t : ℤ) (a b c : ℚ) (ra rb rc : List (ℤ × ℚ)) :
    ensembleForecast ((t, a) :: ra) ((t, b) :: rb) ((t, c) :: rc) =
      (t, some ((a + b + c) / 3)) :: ensembleForecast ra rb rc := by
  simp [ensembleForecast, liftS, sAdd, addOpt]

/-- **C3.** When the three adapter forecast tables share the same timestamp
list, the ensemble trace of `get_forecast` assigns to each forecast
timestamp the arithmetic mean of the three adapters' predicted prices at
that timestamp. -/
theorem ensemble_is_mean (ts : List ℤ) (va vl vm : List ℚ)
    (h1 : va.length = ts.length) (h2 : vl.length = ts.length)
    (h3 : vm.length = ts.length) :
    ensembleForecast (ts.zip va) (ts.zip vl) (ts.zip vm) =
      ts.zip ((mean3 va vl vm).map some) := by
  induction ts generalizing va vl vm with
  | nil =>
    cases va with
    | nil =>
      cases vl with
      | nil =>
        cases vm with
        | nil => simp [ensembleForecast, liftS, sAdd, mean3]
        | cons c tc => simp at h3
      | cons b tb => simp at h2
    | cons a ta => simp at h1
  | cons t tl ih =>
    cases va with
    | nil => simp at h1
    | cons a ta =>
      cases vl with
      | nil => simp at h2
      | cons b tb =>
        cases vm with
        | nil => simp at h3
        | cons c tc =>
          simp only [List.zip_cons_cons]
          rw [ensemble_cons]
          rw [ih ta tb tc (by simpa using h1) (by simpa using h2) (by simpa using h3)]
          simp [mean3]

/-- Witness for `ensemble_is_mean` at a concrete input. -/
theorem ensemble_is_mean_witness :
    ([(1:ℚ), 2].length = [(20:ℤ), 21].length
      ∧ [(2:ℚ), 3].length = [(20:ℤ), 21].length
      ∧ [(3:ℚ), 4].length = [(20:ℤ), 21].length)
    ∧ ensembleForecast ([(20:ℤ), 21].zip [(1:ℚ), 2]) ([(20:ℤ), 21].zip [(2:ℚ), 3])
        ([(20:ℤ), 21].zip [(3:ℚ), 4]) =
      [(20:ℤ), 21].zip ((mean3 [(1:ℚ), 2] [(2:ℚ), 3] [(3:ℚ), 4]).map some) :=
  ⟨⟨by decide, by decide, by decide⟩,
    ensemble_is_mean [(20:ℤ), 21] [(1:ℚ), 2] [(2:ℚ), 3] [(3:ℚ), 4]
      (by decide) (by decide) (by decide)⟩

/-- The contract shared by the three model adapters inside `get_forecast`:
`(y_train, y_test, forecast_days) -> forecast table`, where an internal
failure is a raised exception (`Except.error`). -/
def AdapterFn : Type :=
  List (ℤ × ℚ) → List (ℤ × ℚ) → List ℤ → Except String (List (ℤ × ℚ))

/-- Embedding of the orchestration skeleton of `get_forecast`: slices the
windows, builds the business-day forecast index, runs the three adapters
in order with no exception handler (a raised exception propagates and
aborts the call), and assembles the forecast tables plus the ensemble
trace. Plotting side effects are not modelled; the returned tuple holds the
data the function computes. -/
def get_forecast_core (hist : List (ℤ × ℚ)) (validation_days days_to_forecast : ℕ)
    (auto_arima_model lstm_model MCMC_model : AdapterFn) :
    Except String (List (ℤ × ℚ) × List (ℤ × ℚ) × List (ℤ × ℚ) × List (ℤ × Option ℚ)) :=
  match hist.getLast? with
  | none => .error "IndexError: single positional indexer is out-of-bounds"
  | some _ =>
    let y_train := y_train_of hist validation_days
    let y_test := y_test_of hist validation_days
    let fts := forecastTimestamps (lastDayD hist) days_to_forecast
    do
      let fc_arima ← auto_arima_model y_train y_test fts
      let fc_lstm ← lstm_model y_train y_test fts
      let fc_mcmc ← MCMC_model y_train y_test fts
      pure (fc_arima, fc_lstm, fc_mcmc, ensembleForecast fc_arima fc_lstm fc_mcmc)

/-- An adapter that always succeeds with a fixed forecast table. -/
def constAdapter (r : List (ℤ × ℚ)) : AdapterFn := fun _ _ _ => .ok r

/-- An adapter that always fails with an internal error. -/
def failAdapter (e : String) : AdapterFn := fun _ _ _ => .error e

/-- An adapter that records the window sizes it was handed. -/
def probeAdapter : AdapterFn :=
  fun y_train y_test _ => .ok [((y_train.length : ℤ), (y_test.length : ℚ))]

/-- **C4 counterexample.** With exactly one adapter failing and the other
two succeeding, `get_forecast` does not return a two-model result: the
exception propagates out of the orchestration (there is no handler around
the adapter calls) and the whole forecast aborts, whichever adapter fails. -/
theorem adapter_failure_counterexample :
    get_forecast_core sampleSeries11 5 30
      (failAdapter "AdapterError") (constAdapter [(11, 1)]) (constAdapter [(11, 1)]) =
        .error "AdapterError"
    ∧ get_forecast_core sampleSeries11 5 30
      (constAdapter [(11, 1)]) (failAdapter "AdapterError") (constAdapter [(11, 1)]) =
        .error "AdapterError"
    ∧ get_forecast_core sampleSeries11 5 30
      (constAdapter [(11, 1)]) (constAdapter [(11, 1)]) (failAdapter "AdapterError") =
        .error "AdapterError" := by
  refine ⟨rfl, rfl, rfl⟩

/-- **C4 (amended).** `get_forecast` adopts the abort policy: a failure of
any one adapter (the other two succeeding) propagates unhandled, the call
returns that adapter's error, and no two-model forecast table, comparison
table or ensemble is produced. -/
theorem adapter_failure_aborts (hist : List (ℤ × ℚ)) (validation_days days_to_forecast : ℕ)
    (p : ℤ × ℚ) (h : hist.getLast? = some p) (e : String) (rl rm : List (ℤ × ℚ)) :
    get_forecast_core hist validation_days days_to_forecast
      (failAdapter e) (constAdapter rl) (constAdapter rm) = .error e
    ∧ get_forecast_core hist validation_days days_to_forecast
      (constAdapter rl) (failAdapter e) (constAdapter rm) = .error e
    ∧ get_forecast_core hist validation_days days_to_forecast
      (constAdapter rl) (constAdapter rm) (failAdapter e) = .error e := by
  unfold get_forecast_core
  rw [h]
  exact ⟨rfl, rfl, rfl⟩

/-- Witness for `adapter_failure_aborts` at a concrete input. -/
theorem adapter_failure_aborts_witness :
    sampleSeries11.getLast? = some ((10 : ℤ), (1 : ℚ))
    ∧ (get_forecast_core sampleSeries11 5 30
        (failAdapter "AdapterError") (constAdapter []) (constAdapter []) =
          .error "AdapterError"
      ∧ get_forecast_core sampleSeries11 5 30
        (constAdapter []) (failAdapter "AdapterError") (constAdapter []) =
          .error "AdapterError"
      ∧ get_forecast_core sampleSeries11 5 30
        (constAdapter []) (constAdapter []) (failAdapter "AdapterError") =
          .error "AdapterError") :=
  ⟨by decide,
    adapter_failure_aborts sampleSeries11 5 30 ((10 : ℤ), (1 : ℚ)) (by decide)
      "AdapterError" [] []⟩

/-- A five-trading-day series (days 0..4), the spec's `InsufficientDataError`
test input. -/
def sampleSeries5 : List (ℤ × ℚ) := [(0, 1), (1, 1), (2, 1), (3, 1), (4, 1)]

/-- **C5 counterexample.** On a 5-day series with `validationDays = 90` the
train restriction is empty, yet `get_forecast` raises no
`InsufficientDataError`: it proceeds to invoke the adapters (the probe
adapter observes an empty train window and a 5-point validation window)
and completes. No minimum-length check exists in the code. -/
theorem insufficient_data_counterexample :
    y_train_of sampleSeries5 90 = []
    ∧ (y_test_of sampleSeries5 90).length = 5
    ∧ get_forecast_core sampleSeries5 90 30 probeAdapter (constAdapter []) (constAdapter []) =
        .ok ([((0 : ℤ), (5 : ℚ))], [], [],
          ensembleForecast [((0 : ℤ), (5 : ℚ))] [] []) := by
  refine ⟨by decide, by decide, rfl⟩

/-- **C5 (amended).** The windowing step of `get_forecast` performs no
length validation at all: for every nonempty input series and every
`validationDays`/`forecastDays`, the orchestration runs the adapters on
whatever (possibly empty) windows the slicing yields and returns their
results; any failure on degenerate windows would arise inside the adapter
libraries, never as an `InsufficientDataError` of the windowing step. -/
theorem no_insufficient_data_check (hist : List (ℤ × ℚ))
    (validation_days days_to_forecast : ℕ) (p : ℤ × ℚ) (h : hist.getLast? = some p)
    (ra rl rm : List (ℤ × ℚ)) :
    get_forecast_core hist validation_days days_to_forecast
      (constAdapter ra) (constAdapter rl) (constAdapter rm) =
        .ok (ra, rl, rm, ensembleForecast ra rl rm) := by
  unfold get_forecast_core
  rw [h]
  rfl

/-- Witness for `no_insufficient_data_check` on the 5-day series with an
empty train window (`validationDays = 90`). -/
theorem no_insufficient_data_check_witness :
    sampleSeries5.getLast? = some ((4 : ℤ), (1 : ℚ))
    ∧ get_forecast_core sampleSeries5 90 30
        (constAdapter [(5, 2)]) (constAdapter [(5, 2)]) (constAdapter [(5, 2)]) =
          .ok ([(5, 2)], [(5, 2)], [(5, 2)], ensembleForecast [(5, 2)] [(5, 2)] [(5, 2)]) :=
  ⟨by decide,
    no_insufficient_data_check sampleSeries5 90 30 ((4 : ℤ), (1 : ℚ)) (by decide)
      [(5, 2)] [(5, 2)] [(5, 2)]⟩

/-- `MinMaxScaler.fit` statistic `data_min_`: the minimum of the fitted
data (the source fits on `np.concatenate((trainset, testset))`). -/
def scaler_min : List ℚ → ℚ
  | [] => 0
  | x :: xs => xs.foldl (fun a b => if b < a then b else a) x

/-- `MinMaxScaler.fit` statistic `data_max_`. -/
def scaler_max : List ℚ → ℚ
  | [] => 0
  | x :: xs => xs.foldl (fun a b => if a < b then b else a) x

/-- `MinMaxScaler.transform` with `feature_range = (0, 1)`:
`(x - data_min) / (data_max - data_min)`. -/
def minmax_transform (mn mx x : ℚ) : ℚ := (x - mn) / (mx - mn)

/-- Embedding of the training-data preparation of `lstm_model`
(source lines 147-166): the scaler is fitted on the **concatenation** of
`trainset` and `testset`, `y_train` is scaled with it, and a sliding
60-point lookback window over the scaled training series yields the
training examples `(train_X, train_y)` passed to `model.fit`
(reindexed by `j = i - 60`). -/
def lstm_training_data (y_train y_test : List ℚ) : List (List ℚ) × List ℚ :=
  let combined := y_train ++ y_test
  let mn := scaler_min combined
  let mx := scaler_max combined
  let y_train_scaled := y_train.map (minmax_transform mn mx)
  ((List.range (y_train_scaled.length - 60)).map (fun j => (y_train_scaled.drop j).take 60),
   (List.range (y_train_scaled.length - 60)).map (fun j => y_train_scaled.getD (j + 60) 0))

/-- A 61-point training series (one 0 followed by sixty 1s), long enough to
produce one LSTM training example. -/
def trainSeries61 : List ℚ := (0 : ℚ) :: List.replicate 60 1

lemma lstm_y_trainSeries61 (yte : List ℚ) :
    (lstm_training_data trainSeries61 yte).2 =
      [minmax_transform (scaler_min (trainSeries61 ++ yte))
        (scaler_max (trainSeries61 ++ yte)) 1] := rfl

set_option maxRecDepth 8000 in
/-- **C9 counterexample.** With the training series fixed, changing only the
validation series (from `[1]` to `[3]`) changes the training inputs handed
to `model.fit`: the scaler is fitted on the concatenation of train and
validation data, so the validation maximum rescales every scaled training
point. Training is not a function of the training series alone. -/
theorem lstm_training_leak_counterexample :
    lstm_training_data trainSeries61 [1] ≠ lstm_training_data trainSeries61 [3] := by
  intro hcontra
  have hy := congrArg Prod.snd hcontra
  rw [lstm_y_trainSeries61, lstm_y_trainSeries61] at hy
  have h1 : scaler_min (trainSeries61 ++ [1]) = 0 := by decide
  have h2 : scaler_max (trainSeries61 ++ [1]) = 1 := by decide
  have h3 : scaler_min (trainSeries61 ++ [3]) = 0 := by decide
  have h4 : scaler_max (trainSeries61 ++ [3]) = 3 := by decide
  rw [h1, h2, h3, h4] at hy
  have hval : minmax_transform 0 1 1 = minmax_transform 0 3 1 :=
    List.head_eq_of_cons_eq hy
  norm_num [minmax_transform] at hval

/-- **C9 (amended).** The training inputs of `lstm_model` depend on the
validation series exactly through the min/max statistics of the
concatenated data on which the scaler is fitted: for a fixed training
series, two validation series giving the same concatenated minimum and
maximum yield identical training inputs. -/
theorem lstm_training_depends_only_on_scaler_stats (y_train a b : List ℚ)
    (hmn : scaler_min (y_train ++ a) = scaler_min (y_train ++ b))
    (hmx : scaler_max (y_train ++ a) = scaler_max (y_train ++ b)) :
    lstm_training_data y_train a = lstm_training_data y_train b := by
  simp only [lstm_training_data, hmn, hmx]

/-- Witness for `lstm_training_depends_only_on_scaler_stats`. -/
theorem lstm_training_depends_only_on_scaler_stats_witness :
    (scaler_min ([(1:ℚ), 2] ++ [0, 5]) = scaler_min ([(1:ℚ), 2] ++ [5, 0])
      ∧ scaler_max ([(1:ℚ), 2] ++ [0, 5]) = scaler_max ([(1:ℚ), 2] ++ [5, 0]))
    ∧ lstm_training_data [(1:ℚ), 2] [0, 5] = lstm_training_data [(1:ℚ), 2] [5, 0] :=
  ⟨⟨by decide, by decide⟩,
    lstm_training_depends_only_on_scaler_stats [(1:ℚ), 2] [0, 5] [5, 0]
      (by decide) (by decide)⟩

/-- The module-level sample count `N = 1000` of the MCMC sampler
(`mu, sig, N = 0.25, 0.5, 1000`). -/
def mcmcSampleCount : ℕ := 1000

/-- The chain-building loop of `MCMC`: `for i in range(N)` proposes
`rn = r + uniform(-1, 1)` and accepts it when `q(rn) >= q(r)` or with
probability `q(rn)/q(r)`; the accepted (or retained) state is appended to
`pts` once per iteration. The proposal draw and the acceptance test (which
involve the transcendental Gaussian density `q` and fresh uniform draws)
are abstracted into the parameters `prop` and `accept`; the final
`random.sample(pts, len(pts))` reshuffle, a length-preserving permutation,
is likewise absorbed into the abstraction. One state is appended per
iteration regardless of `prop` and `accept`. -/
def MCMC_go (prop : ℕ → ℚ) (accept : ℕ → ℚ → ℚ → Bool) : ℕ → ℚ → List ℚ
  | 0, _ => []
  | n + 1, r =>
    let rn := r + prop n
    let r2 := if accept n r rn then rn else r
    r2 :: MCMC_go prop accept n r2

/-- `MCMC(N)`: the sampled noise array, one entry per iteration of
`range(N)` starting from the state `r = np.zeros(1)`. -/
def MCMC (prop : ℕ → ℚ) (accept : ℕ → ℚ → ℚ → Bool) : List ℚ :=
  MCMC_go prop accept mcmcSampleCount 0

lemma MCMC_go_length (prop : ℕ → ℚ) (accept : ℕ → ℚ → ℚ → Bool) :
    ∀ (n : ℕ) (r : ℚ), (MCMC_go prop accept n r).length = n := by
  intro n
  induction n with
  | zero => intro r; rfl
  | succ m ih => intro r; simp [MCMC_go, ih]

lemma MCMC_length (prop : ℕ → ℚ) (accept : ℕ → ℚ → ℚ → Bool) :
    (MCMC prop accept).length = mcmcSampleCount :=
  MCMC_go_length prop accept mcmcSampleCount 0

/-- The fresh `MCMC(N)` output drawn in each `while` iteration of `MH` has
the module's sample length. -/
def ptsLengthsOK (ptsGen : ℕ → List ℚ) : Prop :=
  ∀ timestep, (ptsGen timestep).length = mcmcSampleCount

/-- The `while timestep < steps` loop of `MH`. State: `stock_pred` (the
accumulated predictions, seeded with `y_train[-1]`), the counter `i`
(starting at 0) and `timestep` (starting at 1); `fuel = steps - timestep`
counts the remaining iterations. Each iteration reads
`stock_price = stock_pred[-i]` (Python negative indexing: element `0` when
`i = 0`, element `len - i` otherwise), draws a fresh noise array
`pts = MCMC(N)` (the parameter `ptsGen`), and appends
`stock_price * exp((risk_free - volatility^2/2)*delta_t
+ volatility*sqrt(delta_t)*pts[timestep+5])`; the transcendental
exponential factor as a function of the noise value is abstracted into
`factor`. An out-of-range index access raises `IndexError`, modelled as
`none`. The unused local `time_exp` is dropped. -/
def MH_loop (ptsGen : ℕ → List ℚ) (factor : ℚ → ℚ) :
    ℕ → List ℚ → ℕ → ℕ → Option (List ℚ)
  | 0, stock_pred, _, _ => some stock_pred
  | fuel + 1, stock_pred, i, timestep =>
    let pts := ptsGen timestep
    let bIdx := if i = 0 then 0 else stock_pred.length - i
    if h : bIdx < stock_pred.length ∧ timestep + 5 < pts.length then
      let stock_price := stock_pred.get ⟨bIdx, h.1⟩
      let next := stock_price * factor (pts.get ⟨timestep + 5, h.2⟩)
      MH_loop ptsGen factor fuel (stock_pred ++ [next]) (i + 1) (timestep + 1)
    else none

/-- `MH` with `y_train[-1]` already extracted: `steps = len(y_test)`,
`stock_pred` starts as `[y_train[-1]]`, and the loop runs for
`timestep = 1 .. steps-1`. -/
def MH_run (y_train_last : ℚ) (steps : ℕ) (ptsGen : ℕ → List ℚ)
    (factor : ℚ → ℚ) : Option (List ℚ) :=
  MH_loop ptsGen factor (steps - 1) [y_train_last] 0 1

/-- `MH(y_train, y_test)`: reads `y_train[-1]` (`IndexError` on an empty
train series) and runs the prediction loop for `len(y_test)` steps. -/
def MH (y_train : List ℚ) (y_test_len : ℕ) (ptsGen : ℕ → List ℚ)
    (factor : ℚ → ℚ) : Option (List ℚ) :=
  match y_train.getLast? with
  | none => none
  | some s0 => MH_run s0 y_test_len ptsGen factor

lemma MH_loop_isSome (ptsGen : ℕ → List ℚ) (factor : ℚ → ℚ)
    (h : ptsLengthsOK ptsGen) :
    ∀ (fuel : ℕ) (stock_pred : List ℚ) (i timestep : ℕ), stock_pred ≠ [] →
      timestep + fuel ≤ 995 →
      (MH_loop ptsGen factor fuel stock_pred i timestep).isSome = true := by
  intro fuel
  induction fuel with
  | zero => intro pred i timestep _ _; rfl
  | succ n ih =>
    intro pred i timestep hpred hle
    have hlen : 0 < pred.length := List.length_pos.mpr hpred
    have hb : (if i = 0 then 0 else pred.length - i) < pred.length := by
      by_cases hi : i = 0
      · simpa [hi] using hlen
      · have : 1 ≤ i := Nat.one_le_iff_ne_zero.mpr hi
        simp only [hi, if_false]
        omega
    have hN : mcmcSampleCount = 1000 := rfl
    have hpts : timestep + 5 < (ptsGen timestep).length := by
      rw [h timestep]
      omega
    simp only [MH_loop]
    rw [dif_pos ⟨hb, hpts⟩]
    apply ih
    · simp
    · omega

lemma MH_loop_oob (ptsGen : ℕ → List ℚ) (factor : ℚ → ℚ)
    (h : ptsLengthsOK ptsGen) :
    ∀ (fuel : ℕ) (stock_pred : List ℚ) (i timestep : ℕ), stock_pred ≠ [] →
      timestep ≤ 995 → 995 < timestep + fuel →
      MH_loop ptsGen factor fuel stock_pred i timestep = none := by
  intro fuel
  induction fuel with
  | zero =>
    intro pred i timestep _ hle hgt
    exact absurd hgt (by omega)
  | succ n ih =>
    intro pred i timestep hpred hle hgt
    have hN : mcmcSampleCount = 1000 := rfl
    by_cases ht : timestep = 995
    · have hpts : ¬ (timestep + 5 < (ptsGen timestep).length) := by
        rw [h timestep]
        omega
      simp only [MH_loop]
      rw [dif_neg (fun hc => hpts hc.2)]
    · have hlen : 0 < pred.length := List.length_pos.mpr hpred
      have hb : (if i = 0 then 0 else pred.length - i) < pred.length := by
        by_cases hi : i = 0
        · simpa [hi] using hlen
        · have : 1 ≤ i := Nat.one_le_iff_ne_zero.mpr hi
          simp only [hi, if_false]
          omega
      have hpts : timestep + 5 < (ptsGen timestep).length := by
        rw [h timestep]
        omega
      simp only [MH_loop]
      rw [dif_pos ⟨hb, hpts⟩]
      apply ih
      · simp
      · omega
      · omega

/-- **C10.** `MH` indexes the fresh 1000-element `MCMC(N)` noise array at
`timestep + 5` for `timestep = 1 .. steps-1`: when the validation (or
forecast) series has at most 995 points every access is in range and the
run completes, and when it has 996 or more points the access at
`timestep = 995` reaches index 1000 and the run aborts with `IndexError`. -/
theorem MH_noise_index_bound (y_train_last : ℚ) (steps : ℕ)
    (ptsGen : ℕ → List ℚ) (factor : ℚ → ℚ) (h : ptsLengthsOK ptsGen) :
    (steps ≤ 995 → (MH_run y_train_last steps ptsGen factor).isSome = true)
    ∧ (996 ≤ steps → MH_run y_train_last steps ptsGen factor = none) := by
  constructor
  · intro hle
    exact MH_loop_isSome ptsGen factor h (steps - 1) [y_train_last] 0 1
      (by simp) (by omega)
  · intro hge
    exact MH_loop_oob ptsGen factor h (steps - 1) [y_train_last] 0 1
      (by simp) (by omega) (by omega)

/-- A concrete noise generator built from the embedded `MCMC` sampler. -/
def mcmcGen : ℕ → List ℚ := fun _ => MCMC (fun _ => 0) (fun _ _ _ => true)

/-- Witness for `MH_noise_index_bound` with the MCMC-drawn noise arrays. -/
theorem MH_noise_index_bound_witness :
    ptsLengthsOK mcmcGen
    ∧ ((3 ≤ 995 → (MH_run 1 3 mcmcGen (fun z => 1 + z)).isSome = true)
      ∧ (996 ≤ 3 → MH_run 1 3 mcmcGen (fun z => 1 + z) = none)) :=
  ⟨fun _ => MCMC_length _ _,
    MH_noise_index_bound 1 3 mcmcGen (fun z => 1 + z) (fun _ => MCMC_length _ _)⟩

/-- **C8 (code bug).** The loop reads `stock_price = stock_pred[-i]` with
`i` the iteration counter, which from the third iteration on is always
element 1 of the list, not the immediately previous prediction: with
initial price 1 and a constant per-step factor 2, four steps produce
`[1, 1*2, (1*2)*2, (1*2)*2]` — the fourth value repeats
`stock_pred[1] * 2 = 4` instead of continuing the geometric recurrence
`stock_pred[2] * 2 = 8` that the spec (and the surrounding
geometric-diffusion formula) intends. -/
theorem MH_recurrence_bug :
    MH_run 1 4 (fun _ => List.replicate 9 (0 : ℚ)) (fun _ => (2 : ℚ)) =
      some [1, 1 * 2, 1 * 2 * 2, 1 * 2 * 2]
    ∧ ((1 : ℚ) * 2 * 2 ≠ ((1 : ℚ) * 2 * 2) * 2) :=
  ⟨rfl, by norm_num⟩
